import Mathlib

/-!
# Order creation pipeline (`order/service.go`)

A shallow embedding of the order service: `removeDiacritics`, `quest`,
`verifyAddr` and `CreateOrder`, together with the library routines whose exact
behaviour the pipeline depends on (`strings.EqualFold`, `url.QueryEscape`,
`fmt.Sprintf` called with a format and no operands).

Go strings are Lean `String`s (sequences of Unicode scalar values); Go pointers
to sub-messages are `Option`s; the effects of a call (catalog lookups, the
line printed on standard output, the HTTP GET, the repository upsert) are
recorded in an explicit trace and the repository is passed as a state.
-/

namespace OrderService

/-! ## Messages (`orderrpc`) -/

/-- Message `Order_Customer`. -/
structure Customer where
  FirstName : String
  LastName : String
  deriving DecidableEq, Repr

/-- Message `Order_ShippingAddress`. -/
structure ShippingAddress where
  Address : String
  PostalCode : String
  City : String
  Country : String
  deriving DecidableEq, Repr

/-- Message `Order_ProductQuantity`. -/
structure ProductQuantity where
  Pid : String
  Quantity : Int
  deriving DecidableEq, Repr

/-- Message `Order`.  The sub-messages are pointers in Go, hence optional:
`none` is the nil pointer. -/
structure Order where
  Id : String
  C : Option Customer
  Addr : Option ShippingAddress
  ProdQuant : List (Option ProductQuantity)
  deriving DecidableEq, Repr

/-- The generated nil-safe getter `(*Order).GetAddr`. -/
def Order.GetAddr (o : Order) : Option ShippingAddress := o.Addr

/-- The generated nil-safe getter `(*Order).GetC`. -/
def Order.GetC (o : Order) : Option Customer := o.C

/-- The generated nil-safe getter `(*Order_ShippingAddress).GetCountry`: the
empty string on a nil receiver. -/
def GetCountry : Option ShippingAddress → String
  | none => ""
  | some a => a.Country

/-! ## Geocoding response (`order/addr_struct.go`)

The floating point members (`Score`, `Importance`, `x`, `y`, `Coordinates`) are
never read by the service and are left out of the records; the member `Type`
is written `Typ`. -/

structure Geometry where
  Typ : String
  deriving DecidableEq, Repr

structure Properties where
  Label : String
  HouseNumber : String
  Id : String
  Typ : String
  Name : String
  PostCode : String
  CityCode : String
  City : String
  Context : String
  Street : String
  deriving DecidableEq, Repr

structure Feature where
  Typ : String
  Geometry : Geometry
  Properties : Properties
  deriving DecidableEq, Repr

structure ModelAdr where
  Typ : String
  Version : String
  Features : List Feature
  Attribution : String
  License : String
  Query : String
  Limit : Int
  deriving DecidableEq, Repr

/-! ## Errors, outcomes, effects -/

/-- Go `error` values met by the service, by origin. -/
inductive Error where
  /-- The value of `errors.New msg`. -/
  | errorString (msg : String)
  /-- The error returned by `http.Get` (a `*url.Error`). -/
  | urlError (msg : String)
  /-- The error returned by `json.Unmarshal`. -/
  | jsonError (msg : String)
  deriving DecidableEq, Repr

/-- How a Go call ends. -/
inductive Outcome (α : Type) where
  /-- The call returns. -/
  | ret (v : α)
  /-- A nil pointer is dereferenced: run-time panic. -/
  | nilPanic
  /-- The process is terminated by `log.Fatal`. -/
  | fatal (e : String)
  deriving DecidableEq, Repr

/-- Observable actions of the service, in the order they happen. -/
inductive Event where
  /-- The call `pdstor.Product pid`. -/
  | productLookup (pid : String)
  /-- The line written by `fmt.Println`. -/
  | println (line : String)
  /-- The request `http.Get url`. -/
  | httpGet (url : String)
  /-- The call `s.s.SetOrder order`. -/
  | setOrder (order : Order)
  deriving DecidableEq, Repr

/-- What reading the body of an HTTP response gives (`io.ReadAll`). -/
inductive BodyRead where
  | readError (e : String)
  | bytes (body : String)
  deriving DecidableEq, Repr

/-- What `http.Get` gives: an error (no response), or a response with its
status code and body.  Any status code is a response, not an error. -/
inductive HttpResult where
  | connError (e : String)
  | response (status : Nat) (body : BodyRead)
  deriving DecidableEq, Repr

/-- The two results of `ProductStore.Product`: whether the returned `*Product`
is non-nil, and the returned error. -/
structure ProductResult where
  itemPresent : Bool
  err : Option String
  deriving DecidableEq, Repr

/-- The Unicode tables of `golang.org/x/text` and `unicode` that the service
consults; they are data of the libraries, taken as parameters. -/
structure UnicodeData where
  /-- Canonical decomposition `norm.NFD`. -/
  nfd : List Char → List Char
  /-- Canonical composition `norm.NFC`. -/
  nfc : List Char → List Char
  /-- Membership in the category `unicode.Mn` (nonspacing marks). -/
  isMn : Char → Bool
  /-- The function `unicode.SimpleFold` on runes from `0x80` upwards. -/
  foldHigh : Nat → Nat

/-- The collaborators of the service: the product catalog, the HTTP
transport, the JSON decoder for `ModelAdr`, and the order repository with
state `σ`. -/
structure Env (σ : Type) where
  unicode : UnicodeData
  /-- The method `store.NewProductStore().Product`. -/
  Product : String → ProductResult
  /-- The function `http.Get` followed by `io.ReadAll` of the body. -/
  httpGet : String → HttpResult
  /-- The function `json.Unmarshal` into a zero `ModelAdr`. -/
  jsonUnmarshal : String → Except String ModelAdr
  /-- The method `OrderStore.SetOrder`. -/
  SetOrder : σ → Order → σ

/-! ## `strings.EqualFold` -/

/-- The table `unicode.asciiFold`: next rune in the fold orbit of an ASCII
rune (`k` and `s` go to the Kelvin sign and the long s). -/
def asciiFold (r : Nat) : Nat :=
  if 65 ≤ r ∧ r ≤ 90 then r + 32
  else if r = 107 then 0x212A
  else if r = 115 then 0x017F
  else if 97 ≤ r ∧ r ≤ 122 then r - 32
  else r

/-- The function `unicode.SimpleFold`. -/
def SimpleFold (u : UnicodeData) (r : Nat) : Nat :=
  if r < 128 then asciiFold r else u.foldHigh r

/-- The loop `for r != sr && r < tr { r = unicode.SimpleFold(r) }`; fold orbits
have at most four elements, the bound on the iterations is never reached on
them. -/
def foldLoop (u : UnicodeData) (sr tr : Nat) : Nat → Nat → Nat
  | 0, r => r
  | fuel + 1, r =>
    if r ≠ sr ∧ r < tr then foldLoop u sr tr fuel (SimpleFold u r) else r

/-- One step of `strings.EqualFold`: do two runes match under simple folding? -/
def foldEqRune (u : UnicodeData) (a b : Nat) : Bool :=
  if a = b then true
  else
    let sr := min a b
    let tr := max a b
    if tr < 128 then
      decide (65 ≤ sr ∧ sr ≤ 90 ∧ tr = sr + 32)
    else
      foldLoop u sr tr 8 (SimpleFold u sr) == tr

/-- The rune loop of `strings.EqualFold`. -/
def equalFoldRunes (u : UnicodeData) : List Char → List Char → Bool
  | [], [] => true
  | [], _ :: _ => false
  | _ :: _, [] => false
  | a :: s, b :: t => foldEqRune u a.toNat b.toNat && equalFoldRunes u s t

/-- The function `strings.EqualFold`. -/
def EqualFold (u : UnicodeData) (s t : String) : Bool :=
  equalFoldRunes u s.data t.data

/-! ## `removeDiacritics` -/

/-- The function `removeDiacritics`: the chain NFD, removal of the runes in
`unicode.Mn`, NFC. -/
def removeDiacritics (u : UnicodeData) (s : String) : String :=
  ⟨u.nfc ((u.nfd s.data).filter (fun c => !u.isMn c))⟩

/-! ## `url.QueryEscape` -/

/-- The UTF-8 encoding of a rune, as byte values. -/
def utf8Bytes (c : Char) : List Nat :=
  let n := c.toNat
  if n < 0x80 then [n]
  else if n < 0x800 then [0xC0 + n / 64, 0x80 + n % 64]
  else if n < 0x10000 then [0xE0 + n / 4096, 0x80 + n / 64 % 64, 0x80 + n % 64]
  else [0xF0 + n / 262144, 0x80 + n / 4096 % 64, 0x80 + n / 64 % 64, 0x80 + n % 64]

/-- The function `shouldEscape c encodeQueryComponent`: everything but the
unreserved characters is escaped. -/
def shouldEscape (b : Nat) : Bool :=
  if (97 ≤ b ∧ b ≤ 122) ∨ (65 ≤ b ∧ b ≤ 90) ∨ (48 ≤ b ∧ b ≤ 57) then false
  else if b = 45 ∨ b = 95 ∨ b = 46 ∨ b = 126 then false
  else true

/-- The digit table `upperhex`. -/
def upperhex (d : Nat) : Char :=
  "0123456789ABCDEF".data.getD d '0'

/-- What `escape` writes for one byte in the mode `encodeQueryComponent`. -/
def escapeByte (b : Nat) : List Char :=
  if shouldEscape b then
    if b = 32 then ['+'] else ['%', upperhex (b / 16), upperhex (b % 16)]
  else [Char.ofNat b]

/-- The function `url.QueryEscape` on runes. -/
def queryEscapeRunes (s : List Char) : List Char :=
  s.flatMap (fun c => (utf8Bytes c).flatMap escapeByte)

/-- The function `url.QueryEscape`. -/
def QueryEscape (s : String) : String := ⟨queryEscapeRunes s.data⟩

/-! ## `fmt.Sprintf` with a format and no operands -/

/-- The flag characters of a directive. -/
def isFlag (c : Char) : Bool :=
  c = '#' || c = '0' || c = '+' || c = '-' || c = ' '

/-- The loop of `parsenum`: the number read so far, whether a digit was read,
and the rest of the format; a number beyond `1e6` gives up and jumps to the end
of the format. -/
def parsenumAux : Nat → Bool → List Char → Nat × Bool × List Char
  | num, isnum, [] => (num, isnum, [])
  | num, isnum, c :: cs =>
    if 48 ≤ c.toNat ∧ c.toNat ≤ 57 then
      if 1000000 < num then (0, false, [])
      else parsenumAux (num * 10 + (c.toNat - 48)) true cs
    else (num, isnum, c :: cs)

/-- The function `parsenum` from the current position to the end. -/
def parsenum (s : List Char) : Nat × Bool × List Char := parsenumAux 0 false s

/-- The function `parseArgNumber` on a format starting with `[`: the number of
characters taken and whether a well-formed index was read. -/
def parseArgNumber (s : List Char) : Nat × Bool :=
  if s.length < 3 then (1, false)
  else
    let body := s.drop 1
    let inner := body.takeWhile (fun c => c ≠ ']')
    if inner.length = body.length then (1, false)
    else
      let r := parsenum inner
      if r.2.1 ∧ r.2.2 = [] then (inner.length + 2, true)
      else (inner.length + 2, false)

/-- The state of `doPrintf` inside a directive: the text written so far, the
rest of the format, and the flags `afterIndex` and `goodArgNum`. -/
structure Parse where
  out : List Char
  rest : List Char
  afterIndex : Bool
  goodArgNum : Bool
  deriving DecidableEq, Repr

/-- The method `argNumber` when there is no operand: an index in brackets is
skipped and, since it can never be in range, the argument numbering is
marked bad. -/
def argNumber (p : Parse) : Parse :=
  match p.rest with
  | '[' :: r =>
    ⟨p.out, ('[' :: r).drop (parseArgNumber ('[' :: r)).1, (parseArgNumber ('[' :: r)).2, false⟩
  | _ => ⟨p.out, p.rest, false, p.goodArgNum⟩

/-- The width of a directive: a `*` finds no operand and writes
`%!(BADWIDTH)`; a number after an index marks the numbering bad. -/
def readWidth (p : Parse) : Parse :=
  match p.rest with
  | '*' :: r => ⟨p.out ++ "%!(BADWIDTH)".data, r, false, p.goodArgNum⟩
  | _ =>
    ⟨p.out, (parsenum p.rest).2.2, p.afterIndex,
      p.goodArgNum && !(p.afterIndex && (parsenum p.rest).2.1)⟩

/-- The precision of a directive: a `.` that is followed by at least one
character (the test `i+1 < end`) opens it, then come an index, and a `*`
(which finds no operand and writes `%!(BADPREC)`) or a number; a `.` that
ends the format is left in place and is read as the verb. -/
def readPrecision (p : Parse) : Parse :=
  match p.rest with
  | '.' :: c :: r =>
    let a := argNumber ⟨p.out, c :: r, p.afterIndex, p.goodArgNum && !p.afterIndex⟩
    match a.rest with
    | '*' :: r2 => ⟨a.out ++ "%!(BADPREC)".data, r2, false, a.goodArgNum⟩
    | _ => ⟨a.out, (parsenum a.rest).2.2, a.afterIndex, a.goodArgNum⟩
  | _ => p

/-- The last index of a directive, read unless one was just read. -/
def readIndex (p : Parse) : Parse :=
  if p.afterIndex then p else argNumber p

/-- The result of processing one directive: the text written, and the rest of
the format (`none` when processing stops for lack of a verb). -/
structure Directive where
  out : List Char
  rest : Option (List Char)
  deriving DecidableEq, Repr

/-- The body of the loop of `doPrintf` after a `%`, with no operand: flags,
argument index, width, precision, argument index, verb. -/
def directive (s : List Char) : Directive :=
  let p := readIndex (readPrecision (readWidth (argNumber ⟨[], s.dropWhile isFlag, false, true⟩)))
  match p.rest with
  | [] => ⟨p.out ++ "%!(NOVERB)".data, none⟩
  | verb :: r =>
    if verb = '%' then ⟨p.out ++ ['%'], some r⟩
    else if !p.goodArgNum then ⟨p.out ++ "%!".data ++ [verb] ++ "(BADINDEX)".data, some r⟩
    else ⟨p.out ++ "%!".data ++ [verb] ++ "(MISSING)".data, some r⟩

/-- The loop of `doPrintf` with no operand; every round consumes at least one
character of the format, `fuel` bounds the rounds. -/
def doPrintf : Nat → List Char → List Char
  | 0, _ => []
  | _ + 1, [] => []
  | fuel + 1, c :: cs =>
    if c = '%' then
      match (directive cs).rest with
      | none => (directive cs).out
      | some r => (directive cs).out ++ doPrintf fuel r
    else c :: doPrintf fuel cs

/-- The call `fmt.Sprintf format` with no operand. -/
def Sprintf (format : String) : String := ⟨doPrintf format.length format.data⟩

/-! ## `quest` -/

/-- The error `errors.New("address not found")` of `quest`. -/
def errAddressNotFound : Error := .errorString "address not found"

/-- The four results of `quest`: address name, postcode, city, error. -/
structure QuestResult where
  adrname : String
  postcode : String
  city : String
  err : Option Error
  deriving DecidableEq, Repr

/-- The function `quest`: one GET of `path`, the body read and decoded, the
first feature returned.  The status code of the response is not looked at. -/
def quest {σ : Type} (env : Env σ) (path : String) : Outcome QuestResult :=
  match env.httpGet path with
  | .connError e => .ret ⟨"", "", "", some (.urlError e)⟩
  | .response _ (.readError e) => .fatal e
  | .response _ (.bytes body) =>
    match env.jsonUnmarshal body with
    | .error e => .ret ⟨"", "", "", some (.jsonError e)⟩
    | .ok result =>
      match result.Features with
      | [] => .ret ⟨"", "", "", some errAddressNotFound⟩
      | f :: _ => .ret ⟨f.Properties.Name, f.Properties.PostCode, f.Properties.City, none⟩

/-! ## `verifyAddr` -/

/-- The country test of `verifyAddr`:
`EqualFold(country, "france") || EqualFold(country, "fr") || EqualFold(country, "")`. -/
def countryAccepted (u : UnicodeData) (country : String) : Bool :=
  EqualFold u country "france" || EqualFold u country "fr" || EqualFold u country ""

/-- The completeness test of `verifyAddr`, on the stripped city, the postal
code and the stripped street address:
`city == "" || postcode == "" || addr == ""`. -/
def addrIncomplete (city postcode addr : String) : Bool :=
  city = "" || postcode = "" || addr = ""

/-- The string concatenated at the call of `fmt.Sprintf` in `verifyAddr`. -/
def assembledQuery (addr city postcode : String) : String :=
  "https://api-adresse.data.gouv.fr/search/?" ++
    "q=" ++ QueryEscape addr ++ "&" ++
    "city=" ++ QueryEscape city ++ "||" ++
    "postcode=" ++ QueryEscape postcode

/-- The value of the variable `query` of `verifyAddr` for the address `a`:
the assembled string, passed through `fmt.Sprintf` as a format. -/
def queryOf (u : UnicodeData) (a : ShippingAddress) : String :=
  Sprintf (assembledQuery (removeDiacritics u a.Address) (removeDiacritics u a.City) a.PostalCode)

/-- The state after a call of `verifyAddr`: the order message, which the
function updates in place, what happened, and the error returned (`none` is
the nil error). -/
structure Verified where
  order : Order
  trace : List Event
  outcome : Outcome (Option Error)
  deriving DecidableEq, Repr

/-- The function `verifyAddr`. -/
def verifyAddr {σ : Type} (env : Env σ) (order : Order) : Verified :=
  let country := GetCountry order.GetAddr
  if !countryAccepted env.unicode country then
    ⟨order, [], .ret (some (.errorString "send in France only"))⟩
  else
    match order.Addr with
    | none => ⟨order, [], .nilPanic⟩
    | some a0 =>
      let a : ShippingAddress := { a0 with Country := "France" }
      let city := removeDiacritics env.unicode a.City
      let postcode := a.PostalCode
      let addr := removeDiacritics env.unicode a.Address
      if addrIncomplete city postcode addr then
        ⟨{ order with Addr := some a }, [], .ret (some (.errorString "address not complete"))⟩
      else
        let query := Sprintf (assembledQuery addr city postcode)
        let trace := [Event.println query, Event.httpGet query]
        match quest env query with
        | .nilPanic => ⟨{ order with Addr := some a }, trace, .nilPanic⟩
        | .fatal e => ⟨{ order with Addr := some a }, trace, .fatal e⟩
        | .ret q =>
          match q.err with
          | some err => ⟨{ order with Addr := some a }, trace, .ret (some err)⟩
          | none =>
            ⟨{ order with
                Addr := some { a with Address := q.adrname, City := q.city, PostalCode := q.postcode } },
              trace, .ret none⟩

/-! ## `CreateOrder` -/

/-- Message `CreateOrderResponse`: no field. -/
structure CreateOrderResponse where
  deriving DecidableEq, Repr

/-- Whether the catalog lookup of `CreateOrder` fails:
`item == nil || err != nil`. -/
def lookupFails (r : ProductResult) : Bool :=
  !r.itemPresent || r.err.isSome

/-- The error of the product stage for the product id `pid`. -/
def errProductNotFound (pid : String) : Error :=
  .errorString ("product (" ++ pid ++ ") not found")

/-- The loop of `CreateOrder` over `order.ProdQuant`: the lookups made and
the error raised, if any. -/
def checkProducts {σ : Type} (env : Env σ) :
    List (Option ProductQuantity) → List Event × Outcome (Option Error)
  | [] => ([], .ret none)
  | none :: _ => ([], .nilPanic)
  | some pq :: rest =>
    if lookupFails (env.Product pq.Pid) then
      ([.productLookup pq.Pid], .ret (some (errProductNotFound pq.Pid)))
    else
      (.productLookup pq.Pid :: (checkProducts env rest).1, (checkProducts env rest).2)

/-- The state after a call of `CreateOrder`: the pair returned (or how the
call ended instead), the order message, the repository, what happened. -/
structure Created (σ : Type) where
  outcome : Outcome (Option CreateOrderResponse × Option Error)
  order : Order
  store : σ
  trace : List Event

/-- The handler `CreateOrder`, from the repository state `st`. -/
def CreateOrder {σ : Type} (env : Env σ) (st : σ) (order : Order) : Created σ :=
  match order.GetC with
  | none => ⟨.nilPanic, order, st, []⟩
  | some c =>
    if c.FirstName = "" || c.LastName = "" then
      ⟨.ret (none, some (.errorString "customer name not completed")), order, st, []⟩
    else
      match checkProducts env order.ProdQuant with
      | (t, .nilPanic) => ⟨.nilPanic, order, st, t⟩
      | (t, .fatal e) => ⟨.fatal e, order, st, t⟩
      | (t, .ret (some err)) => ⟨.ret (none, some err), order, st, t⟩
      | (t, .ret none) =>
        match verifyAddr env order with
        | ⟨o, tv, .nilPanic⟩ => ⟨.nilPanic, o, st, t ++ tv⟩
        | ⟨o, tv, .fatal e⟩ => ⟨.fatal e, o, st, t ++ tv⟩
        | ⟨o, tv, .ret (some err)⟩ => ⟨.ret (none, some err), o, st, t ++ tv⟩
        | ⟨o, tv, .ret none⟩ =>
          ⟨.ret (some {}, none), o, env.SetOrder st o, t ++ tv ++ [.setOrder o]⟩

/-! ## Reading a URL

The raw query parameters of a URL, for stating what the assembled query is. -/

/-- Cutting a text at every occurrence of the separator. -/
def splitAtSep (sep : Char) : List Char → List (List Char)
  | [] => [[]]
  | c :: cs =>
    if c = sep then [] :: splitAtSep sep cs
    else
      match splitAtSep sep cs with
      | [] => [[c]]
      | h :: t => (c :: h) :: t

/-- Name and value of one parameter: the text before and after its first `=`. -/
def cutParam (p : List Char) : String × String :=
  (⟨p.takeWhile (fun c => c ≠ '=')⟩, ⟨(p.dropWhile (fun c => c ≠ '=')).drop 1⟩)

/-- The raw (still escaped) query parameters of a URL without fragment: the
text after the first `?`, cut at every `&`, the empty pieces dropped, each
piece cut at its first `=`. -/
def rawQueryParams (url : String) : List (String × String) :=
  ((splitAtSep '&' ((url.data.dropWhile (fun c => c ≠ '?')).drop 1)).filter
    (fun p => p ≠ [])).map cutParam

/-! ## A concrete environment

A small, explicit instance of the collaborators, on which the pipeline can be
run: a fragment of the Unicode tables (the combining marks `U+0300`-`U+036F`
and the accented letters of French), the three products of the test suite, an
HTTP transport that answers every request alike, and a decoder that knows two
bodies. -/

/-- Precomposed letters with their canonical decomposition (base, mark). -/
def frenchLetters : List (Char × Char × Char) :=
  [('à', 'a', '\u0300'), ('â', 'a', '\u0302'), ('ç', 'c', '\u0327'),
   ('è', 'e', '\u0300'), ('é', 'e', '\u0301'), ('ê', 'e', '\u0302'),
   ('ë', 'e', '\u0308'), ('î', 'i', '\u0302'), ('ï', 'i', '\u0308'),
   ('ô', 'o', '\u0302'), ('ù', 'u', '\u0300'), ('û', 'u', '\u0302'),
   ('ü', 'u', '\u0308')]

/-- Decomposition of one rune by the table `frenchLetters`. -/
def decomposeRune (c : Char) : List Char :=
  match frenchLetters.find? (fun e => e.1 = c) with
  | some e => [e.2.1, e.2.2]
  | none => [c]

/-- Composition of adjacent base and mark by the table `frenchLetters`. -/
def composeRunes : List Char → List Char
  | [] => []
  | [c] => [c]
  | c :: m :: rest =>
    match frenchLetters.find? (fun e => e.2.1 = c ∧ e.2.2 = m) with
    | some e => e.1 :: composeRunes rest
    | none => c :: composeRunes (m :: rest)

/-- The fragment of the Unicode tables: the marks `U+0300`-`U+036F` are in
`Mn`; the Kelvin sign and the long s fold to `K` and `S`. -/
def frenchUnicode : UnicodeData where
  nfd := fun s => s.flatMap decomposeRune
  nfc := composeRunes
  isMn := fun c => decide (0x300 ≤ c.toNat ∧ c.toNat ≤ 0x36F)
  foldHigh := fun r => if r = 0x212A then 0x4B else if r = 0x17F then 0x53 else r

/-- A body with one feature, as the geocoding service answers. -/
def segurBody : String :=
  "\x7b\"features\":[\x7b\"properties\":\x7b\"name\":\"20 Avenue de Segur\",\"postcode\":\"75007\",\"city\":\"Paris\"\x7d\x7d]\x7d"

/-- The feature of `segurBody`. -/
def segurFeature : Feature where
  Typ := ""
  Geometry := ⟨""⟩
  Properties :=
    { Label := "", HouseNumber := "", Id := "", Typ := "", Name := "20 Avenue de Segur",
      PostCode := "75007", CityCode := "", City := "Paris", Context := "", Street := "" }

/-- The zero value of `ModelAdr`, with the given features. -/
def modelWith (fs : List Feature) : ModelAdr where
  Typ := ""
  Version := ""
  Features := fs
  Attribution := ""
  License := ""
  Query := ""
  Limit := 0

/-- The decoder on the two bodies `segurBody` and the empty object. -/
def sampleUnmarshal (body : String) : Except String ModelAdr :=
  if body = segurBody then .ok (modelWith [segurFeature])
  else if body = "\x7b\x7d" then .ok (modelWith [])
  else .error "invalid character"

/-- The catalog of the test suite. -/
def sampleProduct (pid : String) : ProductResult :=
  if pid = "PIPR-JACKET-SIZM" ∨ pid = "PIPR-MOSPAD-0000" ∨ pid = "PIPR-JOGCAS-SIZL" then
    ⟨true, none⟩
  else ⟨false, some "product not found"⟩

/-- An in-memory repository: upsert keyed by the order id. -/
def sampleSetOrder (st : List Order) (o : Order) : List Order :=
  st.filter (fun x => x.Id ≠ o.Id) ++ [o]

/-- The concrete environment whose transport answers `r` to every request. -/
def sampleEnv (r : HttpResult) : Env (List Order) where
  unicode := frenchUnicode
  Product := sampleProduct
  httpGet := fun _ => r
  jsonUnmarshal := sampleUnmarshal
  SetOrder := sampleSetOrder

/-- The order of `TestOrder_OK`, with the given address and line items. -/
def sampleOrder (addr : Option ShippingAddress) (items : List (Option ProductQuantity)) : Order where
  Id := "1"
  C := some ⟨"Joe", "John"⟩
  Addr := addr
  ProdQuant := items

/-- The line items of `TestOrder_OK`. -/
def sampleItems : List (Option ProductQuantity) :=
  [some ⟨"PIPR-JACKET-SIZM", 5⟩, some ⟨"PIPR-MOSPAD-0000", 5⟩, some ⟨"PIPR-JOGCAS-SIZL", 5⟩]

/-- The address of `TestOrder_OK`. -/
def segurAddr : ShippingAddress := ⟨"20 avenue de Ségur", "75007", "Paris", "France"⟩

/-! ## Auxiliary facts -/

theorem checkProducts_found {σ : Type} (env : Env σ) (items : List ProductQuantity)
    (h : ∀ p ∈ items, lookupFails (env.Product p.Pid) = false) :
    checkProducts env (items.map some)
      = (items.map (fun p => Event.productLookup p.Pid), .ret none) := by
  induction items with
  | nil => rfl
  | cons p ps ih =>
    have hp : lookupFails (env.Product p.Pid) = false := h p (List.mem_cons_self _ _)
    have hps := ih (fun q hq => h q (List.mem_cons_of_mem _ hq))
    simp [checkProducts, hp, hps]

theorem checkProducts_first_missing {σ : Type} (env : Env σ) (pre : List ProductQuantity)
    (item : ProductQuantity) (post : List (Option ProductQuantity))
    (hpre : ∀ p ∈ pre, lookupFails (env.Product p.Pid) = false)
    (hitem : lookupFails (env.Product item.Pid) = true) :
    checkProducts env (pre.map some ++ some item :: post)
      = (pre.map (fun p => Event.productLookup p.Pid) ++ [Event.productLookup item.Pid],
          .ret (some (errProductNotFound item.Pid))) := by
  induction pre with
  | nil => simp [checkProducts, hitem]
  | cons p ps ih =>
    have hp : lookupFails (env.Product p.Pid) = false := hpre p (List.mem_cons_self _ _)
    have hps := ih (fun q hq => hpre q (List.mem_cons_of_mem _ hq))
    simp [checkProducts, hp, hps]

theorem checkProducts_no_setOrder {σ : Type} (env : Env σ) (items : List (Option ProductQuantity))
    (o : Order) : Event.setOrder o ∉ (checkProducts env items).1 := by
  induction items with
  | nil => simp [checkProducts]
  | cons q qs ih =>
    cases q with
    | none => simp [checkProducts]
    | some p =>
      by_cases hp : lookupFails (env.Product p.Pid) = true
      · simp [checkProducts, hp]
      · simp [checkProducts, hp, ih]

theorem checkProducts_not_fatal {σ : Type} (env : Env σ) (items : List (Option ProductQuantity))
    (e : String) : (checkProducts env items).2 ≠ .fatal e := by
  induction items with
  | nil => simp [checkProducts]
  | cons q qs ih =>
    cases q with
    | none => simp [checkProducts]
    | some p =>
      by_cases hp : lookupFails (env.Product p.Pid) = true
      · simp [checkProducts, hp]
      · simp [checkProducts, hp, ih]

theorem verifyAddr_no_setOrder {σ : Type} (env : Env σ) (order o : Order) :
    Event.setOrder o ∉ (verifyAddr env order).trace := by
  unfold verifyAddr
  simp only []
  split
  · simp
  · split
    · simp
    · split
      · simp
      · split
        · simp
        · simp
        · split <;> simp

/-- How `CreateOrder` ends in terms of its two later stages, for an order whose
customer is complete. -/
theorem CreateOrder_stages {σ : Type} (env : Env σ) (st : σ) (order : Order) (c : Customer)
    (hc : order.C = some c) (hf : c.FirstName ≠ "") (hl : c.LastName ≠ "") :
    CreateOrder env st order =
      match (checkProducts env order.ProdQuant).2 with
      | .nilPanic => ⟨.nilPanic, order, st, (checkProducts env order.ProdQuant).1⟩
      | .fatal e => ⟨.fatal e, order, st, (checkProducts env order.ProdQuant).1⟩
      | .ret (some err) => ⟨.ret (none, some err), order, st, (checkProducts env order.ProdQuant).1⟩
      | .ret none =>
        match (verifyAddr env order).outcome with
        | .nilPanic => ⟨.nilPanic, (verifyAddr env order).order, st,
            (checkProducts env order.ProdQuant).1 ++ (verifyAddr env order).trace⟩
        | .fatal e => ⟨.fatal e, (verifyAddr env order).order, st,
            (checkProducts env order.ProdQuant).1 ++ (verifyAddr env order).trace⟩
        | .ret (some err) => ⟨.ret (none, some err), (verifyAddr env order).order, st,
            (checkProducts env order.ProdQuant).1 ++ (verifyAddr env order).trace⟩
        | .ret none => ⟨.ret (some {}, none), (verifyAddr env order).order,
            env.SetOrder st (verifyAddr env order).order,
            (checkProducts env order.ProdQuant).1 ++ (verifyAddr env order).trace
              ++ [.setOrder (verifyAddr env order).order]⟩ := by
  simp only [CreateOrder, Order.GetC, hc, hf, hl, decide_False, Bool.or_self, Bool.false_eq_true,
    if_false]
  rcases hp : checkProducts env order.ProdQuant with ⟨t, r⟩
  rcases r with (_ | err) | _ | e
  · simp only []
    rcases hv : verifyAddr env order with ⟨o, tv, r⟩
    rcases r with (_ | err) | _ | e <;> rfl
  · rfl
  · rfl
  · rfl

/-- C1: an order with a customer record whose first name or last name is empty
is rejected with "customer name not completed", whatever its line items and
address; nothing has happened by then (no catalog lookup, no address
resolution) and the order and the repository are as they were. -/
theorem CreateOrder_incomplete_customer {σ : Type} (env : Env σ) (st : σ) (order : Order)
    (c : Customer) (hc : order.C = some c) (hname : c.FirstName = "" ∨ c.LastName = "") :
    (CreateOrder env st order).outcome
        = .ret (none, some (.errorString "customer name not completed")) ∧
      (CreateOrder env st order).trace = [] ∧
      (CreateOrder env st order).store = st ∧
      (CreateOrder env st order).order = order := by
  have h : (c.FirstName = "" || c.LastName = "") = true := by
    rcases hname with h | h <;> simp [h]
  simp only [CreateOrder, Order.GetC, hc, h, if_true, and_self]

/-- Witness of C1: the order of `TestOrder_NameAbsence_NOK`. -/
theorem CreateOrder_incomplete_customer_witness :
    (CreateOrder (sampleEnv (.connError "down")) []
        ⟨"2", some ⟨"", "John"⟩, some segurAddr, sampleItems⟩).outcome
        = .ret (none, some (.errorString "customer name not completed")) ∧
      (CreateOrder (sampleEnv (.connError "down")) []
        ⟨"2", some ⟨"", "John"⟩, some segurAddr, sampleItems⟩).trace = [] :=
  have h := CreateOrder_incomplete_customer (sampleEnv (.connError "down")) []
    ⟨"2", some ⟨"", "John"⟩, some segurAddr, sampleItems⟩ ⟨"", "John"⟩ rfl (Or.inl rfl)
  ⟨h.1, h.2.1⟩

/-- C2: for an order whose customer is complete, if the line items before some
item are all found by the catalog and that item is not (no product returned,
or an error), the call is rejected with "product (<id>) not found" for the id
of that item, after looking up exactly the items up to it; if all line items
are found, the product stage looks them all up, raises no error, and the call
ends as the address stage `verifyAddr` ends. -/
theorem CreateOrder_products {σ : Type} (env : Env σ) (st : σ) (order : Order) (c : Customer)
    (hc : order.C = some c) (hf : c.FirstName ≠ "") (hl : c.LastName ≠ "") :
    (∀ (pre : List ProductQuantity) (item : ProductQuantity) (post : List (Option ProductQuantity)),
      order.ProdQuant = pre.map some ++ some item :: post →
      (∀ p ∈ pre, lookupFails (env.Product p.Pid) = false) →
      lookupFails (env.Product item.Pid) = true →
      (CreateOrder env st order).outcome
          = .ret (none, some (.errorString ("product (" ++ item.Pid ++ ") not found"))) ∧
        (CreateOrder env st order).trace
          = pre.map (fun p => Event.productLookup p.Pid) ++ [Event.productLookup item.Pid]) ∧
    (∀ items : List ProductQuantity,
      order.ProdQuant = items.map some →
      (∀ p ∈ items, lookupFails (env.Product p.Pid) = false) →
      (checkProducts env order.ProdQuant).2 = .ret none ∧
        (CreateOrder env st order).trace
          = items.map (fun p => Event.productLookup p.Pid) ++ (verifyAddr env order).trace
              ++ (if (verifyAddr env order).outcome = .ret none
                  then [Event.setOrder (verifyAddr env order).order] else []) ∧
        (CreateOrder env st order).outcome
          = (match (verifyAddr env order).outcome with
              | .ret none => .ret (some {}, none)
              | .ret (some err) => .ret (none, some err)
              | .nilPanic => .nilPanic
              | .fatal e => .fatal e)) := by
  constructor
  · intro pre item post hq hpre hitem
    rw [CreateOrder_stages env st order c hc hf hl, hq,
      checkProducts_first_missing env pre item post hpre hitem]
    exact ⟨rfl, rfl⟩
  · intro items hq hall
    rw [CreateOrder_stages env st order c hc hf hl, hq, checkProducts_found env items hall]
    refine ⟨rfl, ?_⟩
    simp only []
    rcases hv : (verifyAddr env order).outcome with (_ | err) | _ | e <;> simp

/-- Witness of C2: the order of `TestOrder_ProductError_NOK`, and the order of
`TestOrder_OK`. -/
theorem CreateOrder_products_witness :
    (CreateOrder (sampleEnv (.connError "down")) []
        (sampleOrder (some segurAddr) [some ⟨"PIPR-JACKET-SIZM", 5⟩, some ⟨"PIPR-JACKET", 5⟩])).outcome
        = .ret (none, some (.errorString "product (PIPR-JACKET) not found")) ∧
      (checkProducts (sampleEnv (.connError "down"))
        (sampleOrder (some segurAddr) sampleItems).ProdQuant).2 = .ret none :=
  ⟨((CreateOrder_products (sampleEnv (.connError "down")) []
      (sampleOrder (some segurAddr) [some ⟨"PIPR-JACKET-SIZM", 5⟩, some ⟨"PIPR-JACKET", 5⟩])
      ⟨"Joe", "John"⟩ rfl (by decide) (by decide)).1
      [⟨"PIPR-JACKET-SIZM", 5⟩] ⟨"PIPR-JACKET", 5⟩ [] rfl (by decide) (by decide)).1,
   ((CreateOrder_products (sampleEnv (.connError "down")) []
      (sampleOrder (some segurAddr) sampleItems)
      ⟨"Joe", "John"⟩ rfl (by decide) (by decide)).2
      [⟨"PIPR-JACKET-SIZM", 5⟩, ⟨"PIPR-MOSPAD-0000", 5⟩, ⟨"PIPR-JOGCAS-SIZL", 5⟩]
      rfl (by decide)).1⟩

/-- C6: when `CreateOrder` returns an error, whatever the stage, the repository
is the one before the call and `SetOrder` has not been called; when it returns
without error, `SetOrder` has been called exactly once, as the last action,
with the order as `verifyAddr` left it, and the repository is the result of
that call.  A call that does not return leaves the repository alone too. -/
theorem CreateOrder_store {σ : Type} (env : Env σ) (st : σ) (order : Order) :
    (∀ resp err, (CreateOrder env st order).outcome = .ret (resp, some err) →
      (CreateOrder env st order).store = st ∧
        ∀ o, Event.setOrder o ∉ (CreateOrder env st order).trace) ∧
    (∀ resp, (CreateOrder env st order).outcome = .ret (resp, none) →
      (verifyAddr env order).outcome = .ret none ∧
        (CreateOrder env st order).order = (verifyAddr env order).order ∧
        (CreateOrder env st order).store = env.SetOrder st (verifyAddr env order).order ∧
        ∃ pre, (CreateOrder env st order).trace = pre ++ [Event.setOrder (verifyAddr env order).order] ∧
          ∀ o, Event.setOrder o ∉ pre) ∧
    ((CreateOrder env st order).outcome = .nilPanic → (CreateOrder env st order).store = st) ∧
    (∀ e, (CreateOrder env st order).outcome = .fatal e → (CreateOrder env st order).store = st) := by
  rcases hc : order.C with _ | c
  · simp [CreateOrder, Order.GetC, hc]
  by_cases hn : (c.FirstName = "" || c.LastName = "") = true
  · simp [CreateOrder, Order.GetC, hc, hn]
  have hf : c.FirstName ≠ "" := by intro h; simp [h] at hn
  have hl : c.LastName ≠ "" := by intro h; simp [h] at hn
  rw [CreateOrder_stages env st order c hc hf hl]
  have hno := checkProducts_no_setOrder env order.ProdQuant
  have hnv := verifyAddr_no_setOrder env order
  have hnapp : ∀ o, Event.setOrder o ∉
      (checkProducts env order.ProdQuant).1 ++ (verifyAddr env order).trace := by
    intro o ho
    rcases List.mem_append.1 ho with h | h
    · exact hno o h
    · exact hnv o h
  rcases hp : (checkProducts env order.ProdQuant).2 with (_ | err) | _ | e
  · rcases hv : (verifyAddr env order).outcome with (_ | err) | _ | e
    · refine ⟨?_, ?_, ?_, ?_⟩
      · intro resp err h
        simp at h
      · intro resp _
        exact ⟨rfl, rfl, rfl, _, rfl, hnapp⟩
      · intro h
        simp at h
      · intro e h
        simp at h
    · refine ⟨?_, ?_, ?_, ?_⟩
      · intro resp err' _
        exact ⟨rfl, hnapp⟩
      · intro resp h
        simp at h
      · intro h
        simp at h
      · intro e h
        simp at h
    · refine ⟨?_, ?_, ?_, ?_⟩
      · intro resp err h
        simp at h
      · intro resp h
        simp at h
      · intro _
        rfl
      · intro e h
        simp at h
    · refine ⟨?_, ?_, ?_, ?_⟩
      · intro resp err h
        simp at h
      · intro resp h
        simp at h
      · intro h
        simp at h
      · intro e' _
        rfl
  · refine ⟨?_, ?_, ?_, ?_⟩
    · intro resp err' _
      exact ⟨rfl, hno⟩
    · intro resp h
      simp at h
    · intro h
      simp at h
    · intro e h
      simp at h
  · refine ⟨?_, ?_, ?_, ?_⟩
    · intro resp err h
      simp at h
    · intro resp h
      simp at h
    · intro _
      rfl
    · intro e h
      simp at h
  · refine ⟨?_, ?_, ?_, ?_⟩
    · intro resp err h
      simp at h
    · intro resp h
      simp at h
    · intro h
      simp at h
    · intro e' _
      rfl

/-- Witness of C6: the order of `TestOrder_CountryErr_NOK` is rejected and
leaves the repository empty; the order of `TestOrder_OK` is stored. -/
theorem CreateOrder_store_witness :
    (CreateOrder (sampleEnv (.response 200 (.bytes segurBody))) []
        (sampleOrder (some ⟨"20 avenue de Ségur", "75007", "Paris", "Espagne"⟩) sampleItems)).store = [] ∧
      (CreateOrder (sampleEnv (.response 200 (.bytes segurBody))) []
        (sampleOrder (some segurAddr) sampleItems)).store
        = [sampleOrder (some ⟨"20 Avenue de Segur", "75007", "Paris", "France"⟩) sampleItems] :=
  ⟨((CreateOrder_store (sampleEnv (.response 200 (.bytes segurBody))) []
      (sampleOrder (some ⟨"20 avenue de Ségur", "75007", "Paris", "Espagne"⟩) sampleItems)).1
      none (.errorString "send in France only") (by decide)).1,
   (((CreateOrder_store (sampleEnv (.response 200 (.bytes segurBody))) []
      (sampleOrder (some segurAddr) sampleItems)).2.1 (some {}) (by decide)).2.2.1).trans
      (by decide)⟩

/-- What `verifyAddr` does on an order with an address whose country is
accepted. -/
theorem verifyAddr_accepted {σ : Type} (env : Env σ) (order : Order) (a : ShippingAddress)
    (ha : order.Addr = some a) (hcountry : countryAccepted env.unicode a.Country = true) :
    verifyAddr env order =
      if addrIncomplete (removeDiacritics env.unicode a.City) a.PostalCode
          (removeDiacritics env.unicode a.Address) then
        ⟨{ order with Addr := some { a with Country := "France" } }, [],
          .ret (some (.errorString "address not complete"))⟩
      else
        match quest env (queryOf env.unicode a) with
        | .nilPanic => ⟨{ order with Addr := some { a with Country := "France" } },
            [Event.println (queryOf env.unicode a),
             Event.httpGet (queryOf env.unicode a)], .nilPanic⟩
        | .fatal e => ⟨{ order with Addr := some { a with Country := "France" } },
            [Event.println (queryOf env.unicode a),
             Event.httpGet (queryOf env.unicode a)], .fatal e⟩
        | .ret q =>
          match q.err with
          | some err => ⟨{ order with Addr := some { a with Country := "France" } },
              [Event.println (queryOf env.unicode a),
               Event.httpGet (queryOf env.unicode a)], .ret (some err)⟩
          | none => ⟨{ order with Addr := some ⟨q.adrname, q.postcode, q.city, "France"⟩ },
              [Event.println (queryOf env.unicode a),
               Event.httpGet (queryOf env.unicode a)], .ret none⟩ := by
  simp only [verifyAddr, Order.GetAddr, ha, GetCountry, hcountry, Bool.not_true,
    Bool.false_eq_true, if_false, queryOf]

/-- The errors of `quest`: never the errors of the two checks of `verifyAddr`. -/
theorem quest_err_cases {σ : Type} (env : Env σ) (path : String) (q : QuestResult)
    (h : quest env path = .ret q) :
    q.err = none ∨ q.err = some errAddressNotFound ∨
      (∃ e, q.err = some (.urlError e)) ∨ (∃ e, q.err = some (.jsonError e)) := by
  unfold quest at h
  split at h
  · cases h; exact Or.inr (Or.inr (Or.inl ⟨_, rfl⟩))
  · cases h
  · split at h
    · cases h; exact Or.inr (Or.inr (Or.inr ⟨_, rfl⟩))
    · split at h
      · cases h; exact Or.inr (Or.inl rfl)
      · cases h; exact Or.inl rfl

theorem quest_not_nilPanic {σ : Type} (env : Env σ) (path : String) :
    quest env path ≠ .nilPanic := by
  unfold quest
  split
  · simp
  · simp
  · split
    · simp
    · split <;> simp

/-- What `quest` returns on a response whose body is read and decoded. -/
theorem quest_decoded {σ : Type} (env : Env σ) (path : String) (status : Nat) (body : String)
    (result : ModelAdr) (hresp : env.httpGet path = .response status (.bytes body))
    (hjson : env.jsonUnmarshal body = .ok result) :
    quest env path =
      match result.Features with
      | [] => .ret ⟨"", "", "", some errAddressNotFound⟩
      | f :: _ => .ret ⟨f.Properties.Name, f.Properties.PostCode, f.Properties.City, none⟩ := by
  simp only [quest, hresp, hjson]

/-- C8, as the code has it: a connection error and a body that does not
decode each make `quest` return the error of the library, which is not the
error "address not found"; `quest` returns "address not found" exactly when
the GET gives a response, of whatever status code, whose body is read and
decodes to a model with no feature. -/
theorem quest_errors {σ : Type} (env : Env σ) (path : String) :
    (∀ e, env.httpGet path = .connError e →
      quest env path = .ret ⟨"", "", "", some (.urlError e)⟩ ∧
        Error.urlError e ≠ .errorString "address not found") ∧
    (∀ status body e, env.httpGet path = .response status (.bytes body) →
      env.jsonUnmarshal body = .error e →
      quest env path = .ret ⟨"", "", "", some (.jsonError e)⟩ ∧
        Error.jsonError e ≠ .errorString "address not found") ∧
    (∀ q, quest env path = .ret q →
      (q.err = some (.errorString "address not found") ↔
        ∃ status body result, env.httpGet path = .response status (.bytes body) ∧
          env.jsonUnmarshal body = .ok result ∧ result.Features = [])) := by
  refine ⟨?_, ?_, ?_⟩
  · intro e h
    simp [quest, h]
  · intro status body e h hj
    simp [quest, h, hj]
  · intro q hq
    unfold quest at hq
    split at hq
    · next e he =>
      cases hq
      simp [he]
    · cases hq
    · next st body he =>
      split at hq
      · next e hj =>
        cases hq
        simp [he, hj]
      · next result hj =>
        split at hq
        · next hf =>
          cases hq
          simp only [errAddressNotFound, true_iff]
          exact ⟨st, body, result, he, hj, hf⟩
        · next f rest hf =>
          cases hq
          simp [he, hj, hf]

/-- Witness of C8 as amended: a refused connection, an HTML body, and an empty
feature list. -/
theorem quest_errors_witness :
    quest (sampleEnv (.connError "connection refused")) "https://api-adresse.data.gouv.fr/search/?q=x"
        = .ret ⟨"", "", "", some (.urlError "connection refused")⟩ ∧
      quest (sampleEnv (.response 200 (.bytes "<html>"))) "https://api-adresse.data.gouv.fr/search/?q=x"
        = .ret ⟨"", "", "", some (.jsonError "invalid character")⟩ ∧
      ∃ status body result,
        (sampleEnv (.response 200 (.bytes "\x7b\x7d"))).httpGet "https://api-adresse.data.gouv.fr/search/?q=x"
            = .response status (.bytes body) ∧
          (sampleEnv (.response 200 (.bytes "\x7b\x7d"))).jsonUnmarshal body = .ok result ∧
          result.Features = [] :=
  ⟨((quest_errors (sampleEnv (.connError "connection refused"))
      "https://api-adresse.data.gouv.fr/search/?q=x").1 "connection refused" rfl).1,
   ((quest_errors (sampleEnv (.response 200 (.bytes "<html>")))
      "https://api-adresse.data.gouv.fr/search/?q=x").2.1 200 "<html>" "invalid character" rfl
      rfl).1,
   ((quest_errors (sampleEnv (.response 200 (.bytes "\x7b\x7d")))
      "https://api-adresse.data.gouv.fr/search/?q=x").2.2
      ⟨"", "", "", some (.errorString "address not found")⟩ (by decide)).1 rfl⟩

/-- C8 fails as stated: a response with the status code 500 and the body `{}`
makes `quest` return the error "address not found". -/
theorem quest_status_500_not_found :
    (sampleEnv (.response 500 (.bytes "\x7b\x7d"))).httpGet "https://api-adresse.data.gouv.fr/search/?q=x"
        = .response 500 (.bytes "\x7b\x7d") ∧
      ¬ (200 ≤ 500 ∧ 500 < 300) ∧
      quest (sampleEnv (.response 500 (.bytes "\x7b\x7d"))) "https://api-adresse.data.gouv.fr/search/?q=x"
        = .ret ⟨"", "", "", some (.errorString "address not found")⟩ := by
  decide

/-- C9 fails on the code: `CreateOrder` ends in a nil-pointer panic on an
order without customer (at `order.GetC().FirstName`), on an order without
shipping address whose customer and products are in order (at the write
`order.Addr.Country`), and on a line-item list with an absent entry (at
`order.ProdQuant[i].Pid`). -/
theorem CreateOrder_nil_panics :
    (∀ (σ : Type) (env : Env σ) (st : σ) (id : String) (addr : Option ShippingAddress)
        (items : List (Option ProductQuantity)),
      (CreateOrder env st ⟨id, none, addr, items⟩).outcome = .nilPanic) ∧
    (CreateOrder (sampleEnv (.response 200 (.bytes segurBody))) []
        (sampleOrder none sampleItems)).outcome = .nilPanic ∧
    (CreateOrder (sampleEnv (.response 200 (.bytes segurBody))) []
        (sampleOrder (some segurAddr) [some ⟨"PIPR-JACKET-SIZM", 5⟩, none])).outcome = .nilPanic := by
  refine ⟨?_, by decide, by decide⟩
  intro σ env st id addr items
  rfl

/-- C10 fails on the code: for the street address `l'avenue` the assembled
string holds the escape `%27`, `fmt.Sprintf` reads `%27a` as a directive with
no operand, and the URL printed and requested is not the assembled string;
likewise for `cœur`, whose `œ` is escaped as `%C5%93`. -/
theorem verifyAddr_percent_escape_mangled :
    assembledQuery "l'avenue" "Paris" "75007"
        = "https://api-adresse.data.gouv.fr/search/?q=l%27avenue&city=Paris||postcode=75007" ∧
      (verifyAddr (sampleEnv (.response 200 (.bytes segurBody)))
        (sampleOrder (some ⟨"l'avenue", "75007", "Paris", "France"⟩) sampleItems)).trace
        = [Event.println
            "https://api-adresse.data.gouv.fr/search/?q=l%!a(MISSING)venue&city=Paris||postcode=75007",
           Event.httpGet
            "https://api-adresse.data.gouv.fr/search/?q=l%!a(MISSING)venue&city=Paris||postcode=75007"] ∧
      QueryEscape (removeDiacritics frenchUnicode "cœur") = "c%C5%93ur" ∧
      Sprintf (assembledQuery "cœur" "Paris" "75007")
        = "https://api-adresse.data.gouv.fr/search/?q=c%!C(MISSING)5%!u(MISSING)r&city=Paris||postcode=75007" ∧
      Sprintf (assembledQuery "cœur" "Paris" "75007") ≠ assembledQuery "cœur" "Paris" "75007" := by
  decide

/-- C5, as the code has it: for an order whose country is accepted,
`verifyAddr` returns "address not complete" exactly when the diacritic-stripped
city, the postal code as supplied, or the diacritic-stripped street address is
the empty string; the resolver is not invoked then (nothing is printed or
requested). -/
theorem verifyAddr_incomplete {σ : Type} (env : Env σ) (order : Order) (a : ShippingAddress)
    (ha : order.Addr = some a) (hcountry : countryAccepted env.unicode a.Country = true) :
    ((verifyAddr env order).outcome = .ret (some (.errorString "address not complete")) ↔
      removeDiacritics env.unicode a.City = "" ∨ a.PostalCode = "" ∨
        removeDiacritics env.unicode a.Address = "") ∧
    ((verifyAddr env order).outcome = .ret (some (.errorString "address not complete")) →
      (verifyAddr env order).trace = []) := by
  rw [verifyAddr_accepted env order a ha hcountry]
  by_cases hinc : addrIncomplete (removeDiacritics env.unicode a.City) a.PostalCode
      (removeDiacritics env.unicode a.Address) = true
  · have hdisj : removeDiacritics env.unicode a.City = "" ∨ a.PostalCode = "" ∨
        removeDiacritics env.unicode a.Address = "" := by
      simpa [addrIncomplete, or_assoc] using hinc
    simp only [hinc, if_true, true_iff, implies_true, and_true]
    exact hdisj
  · have hdisj : ¬ (removeDiacritics env.unicode a.City = "" ∨ a.PostalCode = "" ∨
        removeDiacritics env.unicode a.Address = "") := by
      simpa [addrIncomplete, or_assoc] using hinc
    simp only [hinc, Bool.false_eq_true, if_false, hdisj, iff_false]
    have hne : (match quest env (queryOf env.unicode a) with
        | .nilPanic => (⟨{ order with Addr := some { a with Country := "France" } },
            [Event.println (queryOf env.unicode a),
             Event.httpGet (queryOf env.unicode a)], .nilPanic⟩ : Verified)
        | .fatal e => ⟨{ order with Addr := some { a with Country := "France" } },
            [Event.println (queryOf env.unicode a),
             Event.httpGet (queryOf env.unicode a)], .fatal e⟩
        | .ret q =>
          match q.err with
          | some err => ⟨{ order with Addr := some { a with Country := "France" } },
              [Event.println (queryOf env.unicode a),
               Event.httpGet (queryOf env.unicode a)], .ret (some err)⟩
          | none => ⟨{ order with Addr := some ⟨q.adrname, q.postcode, q.city, "France"⟩ },
              [Event.println (queryOf env.unicode a),
               Event.httpGet (queryOf env.unicode a)], .ret none⟩).outcome
          ≠ .ret (some (.errorString "address not complete")) := by
      rcases hq : quest env (queryOf env.unicode a) with q | _ | e
      · rcases quest_err_cases env _ q hq with h | h | ⟨e, h⟩ | ⟨e, h⟩ <;>
          simp [h, errAddressNotFound]
      · simp
      · simp
    exact ⟨hne, fun h => absurd h hne⟩

/-- Witness of C5 as amended: the order of `Test_Addr_NotFound`, whose postal
code is empty. -/
theorem verifyAddr_incomplete_witness :
    (verifyAddr (sampleEnv (.response 200 (.bytes segurBody)))
        (sampleOrder (some ⟨"20 avenue", "", "Serona", "France"⟩) sampleItems)).outcome
        = .ret (some (.errorString "address not complete")) ∧
      (verifyAddr (sampleEnv (.response 200 (.bytes segurBody)))
        (sampleOrder (some ⟨"20 avenue", "", "Serona", "France"⟩) sampleItems)).trace = [] :=
  have h := verifyAddr_incomplete (sampleEnv (.response 200 (.bytes segurBody)))
    (sampleOrder (some ⟨"20 avenue", "", "Serona", "France"⟩) sampleItems)
    ⟨"20 avenue", "", "Serona", "France"⟩ rfl (by decide)
  ⟨h.1.2 (Or.inr (Or.inl rfl)), h.2 (h.1.2 (Or.inr (Or.inl rfl)))⟩

/-- C5 fails as stated: a city that consists of the combining acute accent
`U+0301` is not the empty string, the postal code and the street address are
not empty either, and `verifyAddr` returns "address not complete". -/
theorem verifyAddr_mark_only_city :
    ("\u0301" : String) ≠ "" ∧ ("75007" : String) ≠ "" ∧ ("20 avenue de Ségur" : String) ≠ "" ∧
      removeDiacritics frenchUnicode "\u0301" = "" ∧
      (verifyAddr (sampleEnv (.response 200 (.bytes segurBody)))
        (sampleOrder (some ⟨"20 avenue de Ségur", "75007", "\u0301", "France"⟩) sampleItems)).outcome
        = .ret (some (.errorString "address not complete")) := by
  decide

/-- C4: for an order whose country is accepted and which passes the
completeness test of `verifyAddr` (stripped city, postal code and stripped
street address not empty), `verifyAddr` prints and requests the URL `query`;
for every response to that request whose body is read and decodes, whatever
its status code, it returns "address not found" when the decoded model has no
feature, and `CreateOrder` then returns that error and leaves the repository
alone; otherwise it returns no error and the order has, as street address,
postal code and city, the name, postcode and city of the first feature,
whatever the caller supplied and whatever the other features are, the country
being "France"; `CreateOrder`, for a complete customer and products that are
all found, then returns its acknowledgement and calls `SetOrder` with that
order. -/
theorem verifyAddr_resolution {σ : Type} (env : Env σ) (st : σ) (order : Order)
    (a : ShippingAddress) (status : Nat) (body : String) (result : ModelAdr)
    (ha : order.Addr = some a) (hcountry : countryAccepted env.unicode a.Country = true)
    (haddr : removeDiacritics env.unicode a.Address ≠ "")
    (hcity : removeDiacritics env.unicode a.City ≠ "") (hpc : a.PostalCode ≠ "")
    (hresp : env.httpGet (queryOf env.unicode a) = .response status (.bytes body))
    (hjson : env.jsonUnmarshal body = .ok result) :
    (verifyAddr env order).trace
        = [Event.println (queryOf env.unicode a), Event.httpGet (queryOf env.unicode a)] ∧
    (result.Features = [] →
      (verifyAddr env order).outcome = .ret (some (.errorString "address not found")) ∧
        ∀ (c : Customer) (items : List ProductQuantity), order.C = some c →
          c.FirstName ≠ "" → c.LastName ≠ "" → order.ProdQuant = items.map some →
          (∀ p ∈ items, lookupFails (env.Product p.Pid) = false) →
          (CreateOrder env st order).outcome
              = .ret (none, some (.errorString "address not found")) ∧
            (CreateOrder env st order).store = st) ∧
    (∀ f rest, result.Features = f :: rest →
      (verifyAddr env order).outcome = .ret none ∧
        (verifyAddr env order).order
          = { order with
              Addr := some ⟨f.Properties.Name, f.Properties.PostCode, f.Properties.City, "France"⟩ } ∧
        ∀ (c : Customer) (items : List ProductQuantity), order.C = some c →
          c.FirstName ≠ "" → c.LastName ≠ "" → order.ProdQuant = items.map some →
          (∀ p ∈ items, lookupFails (env.Product p.Pid) = false) →
          (CreateOrder env st order).outcome = .ret (some {}, none) ∧
            (CreateOrder env st order).store
              = env.SetOrder st { order with
                  Addr := some ⟨f.Properties.Name, f.Properties.PostCode, f.Properties.City,
                    "France"⟩ } ∧
            (CreateOrder env st order).trace
              = items.map (fun p => Event.productLookup p.Pid) ++
                [Event.println (queryOf env.unicode a), Event.httpGet (queryOf env.unicode a),
                 Event.setOrder { order with
                  Addr := some ⟨f.Properties.Name, f.Properties.PostCode, f.Properties.City,
                    "France"⟩ }]) := by
  have hinc : addrIncomplete (removeDiacritics env.unicode a.City) a.PostalCode
      (removeDiacritics env.unicode a.Address) = false := by
    simp [addrIncomplete, haddr, hcity, hpc]
  have hq := quest_decoded env _ status body result hresp hjson
  have hv := verifyAddr_accepted env order a ha hcountry
  simp only [hinc, Bool.false_eq_true, if_false] at hv
  have hcp : ∀ items : List ProductQuantity, order.ProdQuant = items.map some →
      (∀ p ∈ items, lookupFails (env.Product p.Pid) = false) →
      checkProducts env order.ProdQuant
        = (items.map (fun p => Event.productLookup p.Pid), .ret none) := by
    intro items hitems hall
    rw [hitems]
    exact checkProducts_found env items hall
  refine ⟨?_, ?_, ?_⟩
  · rw [hv, hq]
    rcases result.Features with _ | ⟨f, rest⟩ <;> rfl
  · intro hf
    rw [hf] at hq
    have hv2 : verifyAddr env order =
        ⟨{ order with Addr := some { a with Country := "France" } },
          [Event.println (queryOf env.unicode a), Event.httpGet (queryOf env.unicode a)],
          .ret (some (.errorString "address not found"))⟩ := by
      rw [hv, hq]
      rfl
    refine ⟨by rw [hv2], ?_⟩
    intro c items hc hfn hln hitems hall
    rw [CreateOrder_stages env st order c hc hfn hln, hcp items hitems hall]
    simp only [hv2]
    exact ⟨trivial, trivial⟩
  · intro f rest hf
    rw [hf] at hq
    simp only [] at hq
    have hv2 : verifyAddr env order =
        ⟨{ order with
            Addr := some ⟨f.Properties.Name, f.Properties.PostCode, f.Properties.City, "France"⟩ },
          [Event.println (queryOf env.unicode a), Event.httpGet (queryOf env.unicode a)],
          .ret none⟩ := by
      rw [hv, hq]
    refine ⟨by rw [hv2], by rw [hv2], ?_⟩
    intro c items hc hfn hln hitems hall
    rw [CreateOrder_stages env st order c hc hfn hln, hcp items hitems hall]
    simp only [hv2]
    refine ⟨trivial, trivial, ?_⟩
    simp

/-- Witness of C4: the order of `TestOrder_AddrError_OK`, whose street address
is misspelt, against the body `segurBody`. -/
theorem verifyAddr_resolution_witness :
    (verifyAddr (sampleEnv (.response 200 (.bytes segurBody)))
        (sampleOrder (some ⟨"20 av de Ségu", "75007", "Paris", "France"⟩) sampleItems)).trace
        = [Event.println
            "https://api-adresse.data.gouv.fr/search/?q=20+av+de+Segu&city=Paris||postcode=75007",
           Event.httpGet
            "https://api-adresse.data.gouv.fr/search/?q=20+av+de+Segu&city=Paris||postcode=75007"] ∧
      (verifyAddr (sampleEnv (.response 200 (.bytes segurBody)))
        (sampleOrder (some ⟨"20 av de Ségu", "75007", "Paris", "France"⟩) sampleItems)).order
        = sampleOrder (some ⟨"20 Avenue de Segur", "75007", "Paris", "France"⟩) sampleItems ∧
      (CreateOrder (sampleEnv (.response 200 (.bytes segurBody))) []
        (sampleOrder (some ⟨"20 av de Ségu", "75007", "Paris", "France"⟩) sampleItems)).store
        = [sampleOrder (some ⟨"20 Avenue de Segur", "75007", "Paris", "France"⟩) sampleItems] :=
  have h := verifyAddr_resolution (sampleEnv (.response 200 (.bytes segurBody))) []
    (sampleOrder (some ⟨"20 av de Ségu", "75007", "Paris", "France"⟩) sampleItems)
    ⟨"20 av de Ségu", "75007", "Paris", "France"⟩
    200 segurBody (modelWith [segurFeature]) rfl (by decide) (by decide) (by decide) (by decide)
    rfl rfl
  have h2 := h.2.2 segurFeature [] rfl
  ⟨h.1.trans (by decide), h2.2.1, (h2.2.2 ⟨"Joe", "John"⟩
    [⟨"PIPR-JACKET-SIZM", 5⟩, ⟨"PIPR-MOSPAD-0000", 5⟩, ⟨"PIPR-JOGCAS-SIZL", 5⟩]
    rfl (by decide) (by decide) rfl (by decide)).2.1⟩

theorem toNat_ofNat_small (n : Nat) (h : n < 55296) : (Char.ofNat n).toNat = n := by
  have hv : n.isValidChar := Or.inl h
  simp only [Char.ofNat, hv, dif_pos, Char.ofNatAux, Char.toNat]
  rfl

theorem toNat_inj (a c : Char) (h : a.toNat = c.toNat) : a = c := by
  rw [← Char.ofNat_toNat a, ← Char.ofNat_toNat c, h]

theorem toLower_eq_iff (a c : Char) (hc : 97 ≤ c.toNat ∧ c.toNat ≤ 122) :
    a.toLower = c ↔ a = c ∨ a.toNat + 32 = c.toNat := by
  unfold Char.toLower
  simp only [ge_iff_le]
  by_cases hu : 65 ≤ a.toNat ∧ a.toNat ≤ 90
  · rw [if_pos hu]
    have hne : a ≠ c := by
      intro h
      subst h
      omega
    have hval : (Char.ofNat (a.toNat + 32)).toNat = a.toNat + 32 :=
      toNat_ofNat_small _ (by omega)
    constructor
    · intro h
      right
      rw [← h, hval]
    · rintro (h | h)
      · exact absurd h hne
      · apply toNat_inj
        rw [hval, h]
  · rw [if_neg hu]
    constructor
    · intro h; exact Or.inl h
    · rintro (h | h)
      · exact h
      · omega

/-- A rune matches a lower-case ASCII letter other than `k` and `s` under
simple folding exactly when it is that letter or its upper-case form. -/
theorem foldEqRune_plain (u : UnicodeData) (a c : Nat) (hc : 97 ≤ c ∧ c ≤ 122)
    (hk : c ≠ 107) (hs : c ≠ 115) :
    foldEqRune u a c = true ↔ a = c ∨ a + 32 = c := by
  unfold foldEqRune
  by_cases hac : a = c
  · simp [hac]
  · rw [if_neg hac]
    simp only []
    rcases Nat.lt_or_gt_of_ne hac with hlt | hgt
    · have h1 : min a c = a := Nat.min_eq_left (Nat.le_of_lt hlt)
      have h2 : max a c = c := Nat.max_eq_right (Nat.le_of_lt hlt)
      rw [h1, h2, if_pos (by omega)]
      simp only [decide_eq_true_eq]
      omega
    · have h1 : min a c = c := Nat.min_eq_right (Nat.le_of_lt hgt)
      have h2 : max a c = a := Nat.max_eq_left (Nat.le_of_lt hgt)
      rw [h1, h2]
      by_cases h128 : a < 128
      · rw [if_pos h128]
        simp only [decide_eq_true_eq]
        omega
      · rw [if_neg h128]
        have hf1 : SimpleFold u c = c - 32 := by
          unfold SimpleFold asciiFold
          rw [if_pos (by omega), if_neg (by omega), if_neg hk, if_neg hs, if_pos hc]
        have hf2 : SimpleFold u (c - 32) = c := by
          unfold SimpleFold asciiFold
          rw [if_pos (by omega), if_pos (by omega)]
          omega
        have hloop : foldLoop u c a 8 (c - 32) = c := by
          have hstep : foldLoop u c a 8 (c - 32) = foldLoop u c a 7 (SimpleFold u (c - 32)) := by
            show (if c - 32 ≠ c ∧ c - 32 < a then _ else _) = _
            rw [if_pos (by omega)]
          rw [hstep, hf2]
          show (if c ≠ c ∧ c < a then _ else _) = _
          rw [if_neg (by simp)]
        rw [hf1, hloop]
        simp only [beq_iff_eq]
        omega

/-- Lists of lower-case ASCII letters other than `k` and `s`. -/
theorem equalFoldRunes_plain (u : UnicodeData) (t : List Char)
    (ht : ∀ c ∈ t, (97 ≤ c.toNat ∧ c.toNat ≤ 122) ∧ c.toNat ≠ 107 ∧ c.toNat ≠ 115)
    (s : List Char) :
    equalFoldRunes u s t = true ↔ s.map Char.toLower = t := by
  induction t generalizing s with
  | nil =>
    cases s with
    | nil => simp [equalFoldRunes]
    | cons a s => simp [equalFoldRunes]
  | cons c t ih =>
    cases s with
    | nil => simp [equalFoldRunes]
    | cons a s =>
      have hc := ht c (List.mem_cons_self _ _)
      have iht := ih (fun d hd => ht d (List.mem_cons_of_mem _ hd)) s
      have h1 := foldEqRune_plain u a.toNat c.toNat hc.1 hc.2.1 hc.2.2
      have h2 := toLower_eq_iff a c hc.1
      have h3 : a = c ↔ a.toNat = c.toNat := ⟨fun h => by rw [h], toNat_inj a c⟩
      simp only [equalFoldRunes, Bool.and_eq_true, List.map_cons, List.cons.injEq, iht, h1, h2, h3]

theorem string_toLower_eq (s t : String) : s.toLower = t ↔ s.data.map Char.toLower = t.data := by
  unfold String.toLower
  rw [String.map_eq]
  constructor
  · intro h
    rw [← h]
  · intro h
    exact String.ext h

/-- The country test of `verifyAddr` in terms of lower-casing. -/
theorem countryAccepted_iff (u : UnicodeData) (country : String) :
    countryAccepted u country = true ↔
      country.toLower = "" ∨ country.toLower = "france" ∨ country.toLower = "fr" := by
  have hfr := equalFoldRunes_plain u "france".data (by decide) country.data
  have hf := equalFoldRunes_plain u "fr".data (by decide) country.data
  have he := equalFoldRunes_plain u "".data (by decide) country.data
  simp only [countryAccepted, EqualFold, Bool.or_eq_true, hfr, hf, he, string_toLower_eq]
  tauto

/-- C3: for an order with a shipping address, `verifyAddr` does not answer
"send in France only" exactly when the country, lower-cased, is "", "france"
or "fr"; the countries "", "france", "FRANCE" and "fr" are accepted; when the
check passes the country of the order is "France" afterwards; for every other
country the error is "send in France only", nothing has been printed or
requested, and the order is as it was. -/
theorem verifyAddr_country {σ : Type} (env : Env σ) (order : Order) (a : ShippingAddress)
    (ha : order.Addr = some a) :
    ((verifyAddr env order).outcome ≠ .ret (some (.errorString "send in France only")) ↔
      a.Country.toLower = "" ∨ a.Country.toLower = "france" ∨ a.Country.toLower = "fr") ∧
    (countryAccepted env.unicode "" = true ∧ countryAccepted env.unicode "france" = true ∧
      countryAccepted env.unicode "FRANCE" = true ∧ countryAccepted env.unicode "fr" = true) ∧
    ((a.Country.toLower = "" ∨ a.Country.toLower = "france" ∨ a.Country.toLower = "fr") →
      ∃ a', (verifyAddr env order).order.Addr = some a' ∧ a'.Country = "France") ∧
    (¬ (a.Country.toLower = "" ∨ a.Country.toLower = "france" ∨ a.Country.toLower = "fr") →
      (verifyAddr env order).outcome = .ret (some (.errorString "send in France only")) ∧
        (verifyAddr env order).trace = [] ∧ (verifyAddr env order).order = order) := by
  have hrej : countryAccepted env.unicode a.Country = false →
      verifyAddr env order = ⟨order, [], .ret (some (.errorString "send in France only"))⟩ := by
    intro h
    simp only [verifyAddr, Order.GetAddr, ha, GetCountry, h, Bool.not_false, if_true]
  have hacc : countryAccepted env.unicode a.Country = true →
      (verifyAddr env order).outcome ≠ .ret (some (.errorString "send in France only")) ∧
        ∃ a', (verifyAddr env order).order.Addr = some a' ∧ a'.Country = "France" := by
    intro h
    rw [verifyAddr_accepted env order a ha h]
    by_cases hinc : addrIncomplete (removeDiacritics env.unicode a.City) a.PostalCode
        (removeDiacritics env.unicode a.Address) = true
    · simp only [hinc, if_true]
      exact ⟨by simp, _, rfl, rfl⟩
    · simp only [hinc, Bool.false_eq_true, if_false]
      rcases hq : quest env (queryOf env.unicode a) with q | _ | e
      · rcases quest_err_cases env _ q hq with h | h | ⟨e, h⟩ | ⟨e, h⟩
        · simp only [h]
          exact ⟨by simp, _, rfl, rfl⟩
        · simp only [h]
          exact ⟨by simp [errAddressNotFound], _, rfl, rfl⟩
        · simp only [h]
          exact ⟨by simp, _, rfl, rfl⟩
        · simp only [h]
          exact ⟨by simp, _, rfl, rfl⟩
      · exact ⟨by simp, _, rfl, rfl⟩
      · exact ⟨by simp, _, rfl, rfl⟩
  have hiff := countryAccepted_iff env.unicode a.Country
  refine ⟨?_, ?_, ?_, ?_⟩
  · constructor
    · intro hne
      by_cases h : countryAccepted env.unicode a.Country = true
      · exact hiff.1 h
      · exfalso
        apply hne
        rw [hrej (by simpa using h)]
    · intro hl
      exact (hacc (hiff.2 hl)).1
  · refine ⟨?_, ?_, ?_, ?_⟩
    · exact (countryAccepted_iff env.unicode "").2 (Or.inl ((string_toLower_eq _ _).2 (by decide)))
    · exact (countryAccepted_iff env.unicode "france").2
        (Or.inr (Or.inl ((string_toLower_eq _ _).2 (by decide))))
    · exact (countryAccepted_iff env.unicode "FRANCE").2
        (Or.inr (Or.inl ((string_toLower_eq _ _).2 (by decide))))
    · exact (countryAccepted_iff env.unicode "fr").2
        (Or.inr (Or.inr ((string_toLower_eq _ _).2 (by decide))))
  · intro hl
    exact (hacc (hiff.2 hl)).2
  · intro hl
    have h : countryAccepted env.unicode a.Country = false := by
      cases hca : countryAccepted env.unicode a.Country
      · rfl
      · exact absurd (hiff.1 hca) hl
    rw [hrej h]
    exact ⟨rfl, rfl, rfl⟩

/-- Witness of C3: the country "FRANCE" is normalised, the country "Espagne"
of `TestOrder_CountryErr_NOK` is refused. -/
theorem verifyAddr_country_witness :
    (∃ a', (verifyAddr (sampleEnv (.response 200 (.bytes segurBody)))
        (sampleOrder (some ⟨"20 avenue de Ségur", "75007", "Paris", "FRANCE"⟩) sampleItems)).order.Addr
          = some a' ∧ a'.Country = "France") ∧
      (verifyAddr (sampleEnv (.response 200 (.bytes segurBody)))
        (sampleOrder (some ⟨"20 avenue de Ségur", "75007", "Paris", "Espagne"⟩) sampleItems)).outcome
        = .ret (some (.errorString "send in France only")) :=
  ⟨(verifyAddr_country (sampleEnv (.response 200 (.bytes segurBody)))
      (sampleOrder (some ⟨"20 avenue de Ségur", "75007", "Paris", "FRANCE"⟩) sampleItems)
      ⟨"20 avenue de Ségur", "75007", "Paris", "FRANCE"⟩ rfl).2.2.1
      (Or.inr (Or.inl ((string_toLower_eq _ _).2 (by decide)))),
   ((verifyAddr_country (sampleEnv (.response 200 (.bytes segurBody)))
      (sampleOrder (some ⟨"20 avenue de Ségur", "75007", "Paris", "Espagne"⟩) sampleItems)
      ⟨"20 avenue de Ségur", "75007", "Paris", "Espagne"⟩ rfl).2.2.2
      (by
        simp only [string_toLower_eq]
        decide)).1⟩

theorem doPrintf_no_percent (s : List Char) (h : '%' ∉ s) (n : Nat) (hn : s.length ≤ n) :
    doPrintf n s = s := by
  induction s generalizing n with
  | nil => cases n <;> rfl
  | cons c cs ih =>
    cases n with
    | zero => simp at hn
    | succ n =>
      have hc : c ≠ '%' := by
        intro hc
        exact h (by simp [hc])
      have hcs : '%' ∉ cs := fun hm => h (List.mem_cons_of_mem _ hm)
      simp only [doPrintf, hc, if_false]
      rw [ih hcs n (by simpa using hn)]

/-- A format without `%` is returned unchanged by `fmt.Sprintf`. -/
theorem Sprintf_no_percent (s : String) (h : '%' ∉ s.data) : Sprintf s = s := by
  unfold Sprintf
  rw [doPrintf_no_percent s.data h s.length (Nat.le_refl _)]

theorem upperhex_alnum (d : Nat) :
    (upperhex d).toNat ≠ 38 ∧ (upperhex d).toNat ≠ 61 ∧ (upperhex d).toNat ≠ 63 := by
  by_cases hd : d < 16
  · interval_cases d <;> decide
  · have : upperhex d = '0' := by
      unfold upperhex
      rw [List.getD_eq_default]
      simpa using hd
    rw [this]
    decide

/-- The characters written by `escape` are never `&`, `=` or `?`. -/
theorem escapeByte_plain (b : Nat) (x : Char) (hx : x ∈ escapeByte b) :
    x ≠ '&' ∧ x ≠ '=' ∧ x ≠ '?' := by
  have key : x.toNat ≠ 38 ∧ x.toNat ≠ 61 ∧ x.toNat ≠ 63 := by
    unfold escapeByte at hx
    by_cases he : shouldEscape b = true
    · rw [if_pos he] at hx
      by_cases h32 : b = 32
      · rw [if_pos h32] at hx
        simp only [List.mem_singleton] at hx
        subst hx
        decide
      · rw [if_neg h32] at hx
        simp only [List.mem_cons, List.mem_singleton, List.not_mem_nil, or_false] at hx
        rcases hx with h | h | h
        · subst h
          decide
        · subst h
          exact upperhex_alnum _
        · subst h
          exact upperhex_alnum _
    · rw [if_neg he] at hx
      simp only [List.mem_singleton] at hx
      subst hx
      have hb : ((97 ≤ b ∧ b ≤ 122) ∨ (65 ≤ b ∧ b ≤ 90) ∨ (48 ≤ b ∧ b ≤ 57)) ∨
          (b = 45 ∨ b = 95 ∨ b = 46 ∨ b = 126) := by
        unfold shouldEscape at he
        by_contra hcon
        rw [not_or] at hcon
        rw [if_neg hcon.1, if_neg hcon.2] at he
        exact he rfl
      rw [toNat_ofNat_small b (by omega)]
      omega
  refine ⟨?_, ?_, ?_⟩ <;> intro h <;> subst h <;> simp at key

theorem queryEscapeRunes_plain (s : List Char) (x : Char) (hx : x ∈ queryEscapeRunes s) :
    x ≠ '&' ∧ x ≠ '=' ∧ x ≠ '?' := by
  unfold queryEscapeRunes at hx
  simp only [List.mem_flatMap] at hx
  obtain ⟨c, _, b, _, hb⟩ := hx
  exact escapeByte_plain b x hb

theorem splitAtSep_not_mem (sep : Char) (xs : List Char) (h : sep ∉ xs) :
    splitAtSep sep xs = [xs] := by
  induction xs with
  | nil => rfl
  | cons c cs ih =>
    have hc : c ≠ sep := fun hc => h (by simp [hc])
    have hcs : sep ∉ cs := fun hm => h (List.mem_cons_of_mem _ hm)
    simp only [splitAtSep, hc, if_false, ih hcs]

theorem splitAtSep_append (sep : Char) (xs ys : List Char) (h : sep ∉ xs) :
    splitAtSep sep (xs ++ sep :: ys) = xs :: splitAtSep sep ys := by
  induction xs with
  | nil => simp [splitAtSep]
  | cons c cs ih =>
    have hc : c ≠ sep := fun hc => h (by simp [hc])
    have hcs : sep ∉ cs := fun hm => h (List.mem_cons_of_mem _ hm)
    rw [List.cons_append]
    simp only [splitAtSep, hc, if_false]
    rw [ih hcs]

theorem takeWhile_append_sep (sep : Char) (xs ys : List Char) (h : sep ∉ xs) :
    (xs ++ sep :: ys).takeWhile (fun c => c ≠ sep) = xs ∧
      (xs ++ sep :: ys).dropWhile (fun c => c ≠ sep) = sep :: ys := by
  induction xs with
  | nil => simp
  | cons c cs ih =>
    have hc : c ≠ sep := fun hc => h (by simp [hc])
    have hcs : sep ∉ cs := fun hm => h (List.mem_cons_of_mem _ hm)
    have hd : decide (c ≠ sep) = true := decide_eq_true hc
    rw [List.cons_append, List.takeWhile_cons, List.dropWhile_cons]
    simp only [hd, if_true, (ih hcs).1, (ih hcs).2, and_self]

/-- The raw query parameters of a URL with two parameters. -/
theorem rawQueryParams_two (base n1 v1 n2 v2 : List Char) (hb : '?' ∉ base)
    (h1 : '&' ∉ n1 ++ '=' :: v1) (h2 : '&' ∉ n2 ++ '=' :: v2)
    (hn1 : '=' ∉ n1) (hn2 : '=' ∉ n2) :
    rawQueryParams ⟨base ++ '?' :: ((n1 ++ '=' :: v1) ++ '&' :: (n2 ++ '=' :: v2))⟩
      = [(⟨n1⟩, ⟨v1⟩), (⟨n2⟩, ⟨v2⟩)] := by
  have hd := (takeWhile_append_sep '?' base ((n1 ++ '=' :: v1) ++ '&' :: (n2 ++ '=' :: v2)) hb).2
  have hc1 := takeWhile_append_sep '=' n1 v1 hn1
  have hc2 := takeWhile_append_sep '=' n2 v2 hn2
  have hfil : List.filter (fun p : List Char => decide (p ≠ [])) [n1 ++ '=' :: v1, n2 ++ '=' :: v2]
      = [n1 ++ '=' :: v1, n2 ++ '=' :: v2] := by
    simp [List.filter]
  unfold rawQueryParams
  rw [hd, List.drop_one, List.tail_cons, splitAtSep_append _ _ _ h1, splitAtSep_not_mem _ _ h2,
    hfil]
  simp only [List.map_cons, List.map_nil, cutParam, hc1.1, hc1.2, hc2.1, hc2.2, List.drop_one,
    List.tail_cons]

/-- The raw query parameters of the assembled query. -/
theorem rawQueryParams_assembled (addr city postcode : String) :
    rawQueryParams (assembledQuery addr city postcode)
      = [("q", QueryEscape addr),
         ("city", QueryEscape city ++ "||postcode=" ++ QueryEscape postcode)] := by
  have hA := queryEscapeRunes_plain addr.data
  have hC := queryEscapeRunes_plain city.data
  have hP := queryEscapeRunes_plain postcode.data
  have hdata : assembledQuery addr city postcode
      = ⟨"https://api-adresse.data.gouv.fr/search/".data ++ '?' ::
          (("q".data ++ '=' :: queryEscapeRunes addr.data) ++ '&' ::
            ("city".data ++ '=' ::
              (queryEscapeRunes city.data ++ "||postcode=".data ++ queryEscapeRunes postcode.data)))⟩ := by
    apply String.ext
    simp [assembledQuery, QueryEscape, String.data_append]
  have hq : '&' ∉ "q".data ++ '=' :: queryEscapeRunes addr.data := by
    intro hm
    rcases List.mem_append.1 hm with h | h
    · exact absurd h (by decide)
    · rcases List.mem_cons.1 h with h | h
      · exact absurd h (by decide)
      · exact (hA _ h).1 rfl
  have hrest : '&' ∉ "city".data ++ '=' ::
      (queryEscapeRunes city.data ++ "||postcode=".data ++ queryEscapeRunes postcode.data) := by
    intro hm
    rcases List.mem_append.1 hm with h | h
    · exact absurd h (by decide)
    · rcases List.mem_cons.1 h with h | h
      · exact absurd h (by decide)
      · rcases List.mem_append.1 h with h | h
        · rcases List.mem_append.1 h with h | h
          · exact (hC _ h).1 rfl
          · exact absurd h (by decide)
        · exact (hP _ h).1 rfl
  rw [hdata, rawQueryParams_two _ _ _ _ _ (by decide) hq hrest (by decide) (by decide)]
  simp [QueryEscape, String.ext_iff, String.data_append]

/-- C7, as the code has it: for an order whose country is accepted, whose
diacritic-stripped street address and city and whose postal code are not
empty, and whose three escaped values hold no percent-escape, the URL that
`verifyAddr` prints and hands to the GET is the search endpoint followed by
`q=`, the escaped stripped street address, `&city=`, the escaped stripped
city, `||postcode=` and the escaped postal code; its query string has two
parameters separated by `&`: `q`, and `city`, whose raw value is the escaped
stripped city followed by `||postcode=` and the escaped postal code. -/
theorem verifyAddr_query {σ : Type} (env : Env σ) (order : Order) (a : ShippingAddress)
    (ha : order.Addr = some a) (hcountry : countryAccepted env.unicode a.Country = true)
    (haddr : removeDiacritics env.unicode a.Address ≠ "")
    (hcity : removeDiacritics env.unicode a.City ≠ "") (hpc : a.PostalCode ≠ "")
    (hpct : '%' ∉ (QueryEscape (removeDiacritics env.unicode a.Address)).data ∧
      '%' ∉ (QueryEscape (removeDiacritics env.unicode a.City)).data ∧
      '%' ∉ (QueryEscape a.PostalCode).data) :
    ∃ url : String,
      url = "https://api-adresse.data.gouv.fr/search/?q="
          ++ QueryEscape (removeDiacritics env.unicode a.Address)
          ++ "&city=" ++ QueryEscape (removeDiacritics env.unicode a.City)
          ++ "||postcode=" ++ QueryEscape a.PostalCode ∧
        (verifyAddr env order).trace = [Event.println url, Event.httpGet url] ∧
        rawQueryParams url
          = [("q", QueryEscape (removeDiacritics env.unicode a.Address)),
             ("city", QueryEscape (removeDiacritics env.unicode a.City) ++ "||postcode="
                ++ QueryEscape a.PostalCode)] := by
  have hinc : addrIncomplete (removeDiacritics env.unicode a.City) a.PostalCode
      (removeDiacritics env.unicode a.Address) = false := by
    simp [addrIncomplete, haddr, hcity, hpc]
  have hno : '%' ∉ (assembledQuery (removeDiacritics env.unicode a.Address)
      (removeDiacritics env.unicode a.City) a.PostalCode).data := by
    intro hm
    simp only [assembledQuery, String.data_append, List.mem_append, or_assoc] at hm
    rcases hm with h | h | h | h | h | h | h | h | h
    · exact absurd h (by decide)
    · exact absurd h (by decide)
    · exact hpct.1 h
    · exact absurd h (by decide)
    · exact absurd h (by decide)
    · exact hpct.2.1 h
    · exact absurd h (by decide)
    · exact absurd h (by decide)
    · exact hpct.2.2 h
  have hurl : queryOf env.unicode a = assembledQuery (removeDiacritics env.unicode a.Address)
      (removeDiacritics env.unicode a.City) a.PostalCode := by
    unfold queryOf
    exact Sprintf_no_percent _ hno
  have hspell : assembledQuery (removeDiacritics env.unicode a.Address)
      (removeDiacritics env.unicode a.City) a.PostalCode
      = "https://api-adresse.data.gouv.fr/search/?q="
          ++ QueryEscape (removeDiacritics env.unicode a.Address)
          ++ "&city=" ++ QueryEscape (removeDiacritics env.unicode a.City)
          ++ "||postcode=" ++ QueryEscape a.PostalCode := by
    apply String.ext
    simp [assembledQuery, String.data_append]
  refine ⟨assembledQuery (removeDiacritics env.unicode a.Address)
      (removeDiacritics env.unicode a.City) a.PostalCode, hspell, ?_, ?_⟩
  · rw [← hurl, verifyAddr_accepted env order a ha hcountry]
    simp only [hinc, Bool.false_eq_true, if_false]
    rcases hq : quest env (queryOf env.unicode a) with q | _ | e
    · rcases hqe : q.err with _ | err
      · simp only [hqe]
      · simp only [hqe]
    · rfl
    · rfl
  · exact rawQueryParams_assembled _ _ _

/-- Witness of C7 as amended: the order of `TestOrder_OK`. -/
theorem verifyAddr_query_witness :
    ∃ url : String,
      url = "https://api-adresse.data.gouv.fr/search/?q=" ++ "20+avenue+de+Segur"
          ++ "&city=" ++ "Paris" ++ "||postcode=" ++ "75007" ∧
        (verifyAddr (sampleEnv (.response 200 (.bytes segurBody)))
          (sampleOrder (some segurAddr) sampleItems)).trace
          = [Event.println url, Event.httpGet url] ∧
        rawQueryParams url = [("q", "20+avenue+de+Segur"), ("city", "Paris" ++ "||postcode=" ++ "75007")] :=
  verifyAddr_query (sampleEnv (.response 200 (.bytes segurBody)))
    (sampleOrder (some segurAddr) sampleItems) segurAddr rfl (by decide) (by decide) (by decide)
    (by decide) (by decide)

/-- C7 fails as stated: for the order of `TestOrder_OK` the URL handed to the
GET has two parameters separated by `&`, not three, and none named
`postcode`: the text `postcode=75007` follows `||` inside the value of
`city`. -/
theorem verifyAddr_query_two_params :
    (verifyAddr (sampleEnv (.response 200 (.bytes segurBody)))
        (sampleOrder (some segurAddr) sampleItems)).trace
        = [Event.println
            "https://api-adresse.data.gouv.fr/search/?q=20+avenue+de+Segur&city=Paris||postcode=75007",
           Event.httpGet
            "https://api-adresse.data.gouv.fr/search/?q=20+avenue+de+Segur&city=Paris||postcode=75007"] ∧
      rawQueryParams
          "https://api-adresse.data.gouv.fr/search/?q=20+avenue+de+Segur&city=Paris||postcode=75007"
        = [("q", "20+avenue+de+Segur"), ("city", "Paris||postcode=75007")] ∧
      (rawQueryParams
          "https://api-adresse.data.gouv.fr/search/?q=20+avenue+de+Segur&city=Paris||postcode=75007").length
        ≠ 3 ∧
      (rawQueryParams
          "https://api-adresse.data.gouv.fr/search/?q=20+avenue+de+Segur&city=Paris||postcode=75007").map
          Prod.fst ≠ ["q", "city", "postcode"] := by
  decide

theorem parsenumAux_length (s : List Char) (num : Nat) (isnum : Bool) :
    (parsenumAux num isnum s).2.2.length ≤ s.length := by
  induction s generalizing num isnum with
  | nil => simp [parsenumAux]
  | cons c cs ih =>
    unfold parsenumAux
    split
    · split
      · simp
      · exact Nat.le_succ_of_le (ih _ _)
    · exact Nat.le_refl _

theorem argNumber_length (p : Parse) : (argNumber p).rest.length ≤ p.rest.length := by
  unfold argNumber
  split
  · next r h =>
    rw [h]
    simp only [List.length_drop]
    omega
  · exact Nat.le_refl _

theorem readWidth_length (p : Parse) : (readWidth p).rest.length ≤ p.rest.length := by
  unfold readWidth
  split
  · next r h =>
    rw [h]
    simp
  · exact parsenumAux_length _ _ _

theorem readPrecision_length (p : Parse) : (readPrecision p).rest.length ≤ p.rest.length := by
  unfold readPrecision
  split
  · next c r h =>
    rw [h]
    have ha := argNumber_length ⟨p.out, c :: r, p.afterIndex, p.goodArgNum && !p.afterIndex⟩
    simp only [] at ha ⊢
    split
    · next r2 h2 =>
      rw [h2] at ha
      simp only [List.length_cons] at ha ⊢
      omega
    · have hp := parsenumAux_length
        (argNumber ⟨p.out, c :: r, p.afterIndex, p.goodArgNum && !p.afterIndex⟩).rest 0 false
      simp only [parsenum, List.length_cons] at hp ha ⊢
      omega
  · exact Nat.le_refl _

theorem readIndex_length (p : Parse) : (readIndex p).rest.length ≤ p.rest.length := by
  unfold readIndex
  split
  · exact Nat.le_refl _
  · exact argNumber_length p

/-- A directive consumes its verb: what is left of the format is shorter. -/
theorem directive_rest_length (s r : List Char) (h : (directive s).rest = some r) :
    r.length < s.length := by
  have h1 := argNumber_length ⟨[], s.dropWhile isFlag, false, true⟩
  have h2 := readWidth_length (argNumber ⟨[], s.dropWhile isFlag, false, true⟩)
  have h3 := readPrecision_length (readWidth (argNumber ⟨[], s.dropWhile isFlag, false, true⟩))
  have h4 := readIndex_length
    (readPrecision (readWidth (argNumber ⟨[], s.dropWhile isFlag, false, true⟩)))
  have h0 : (s.dropWhile isFlag).length ≤ s.length :=
    (List.dropWhile_sublist isFlag).length_le
  simp only [] at h1
  unfold directive at h
  simp only [] at h
  split at h
  · simp at h
  · next verb r' hr =>
    rw [hr] at h4
    simp only [List.length_cons] at h4
    have hrr : r = r' := by
      split at h
      · simpa using h.symm
      · split at h <;> simpa using h.symm
    rw [hrr]
    omega

/-- The bound on the rounds of `doPrintf` is never reached: any bound from the
length of the format on gives the same text. -/
theorem doPrintf_fuel (n : Nat) : ∀ (s : List Char) (m : Nat), s.length ≤ n → s.length ≤ m →
    doPrintf n s = doPrintf m s := by
  induction n with
  | zero =>
    intro s m hn _
    have hs : s = [] := List.length_eq_zero.1 (Nat.le_zero.1 hn)
    subst hs
    cases m <;> rfl
  | succ n ih =>
    intro s m hn hm
    cases s with
    | nil => cases m <;> rfl
    | cons c cs =>
      cases m with
      | zero => simp at hm
      | succ m =>
        have hn1 : cs.length ≤ n := by simpa using hn
        have hm1 : cs.length ≤ m := by simpa using hm
        by_cases hc : c = '%'
        · simp only [doPrintf, hc, if_true]
          rcases hd : (directive cs).rest with _ | r
          · rfl
          · have hlt := directive_rest_length cs r hd
            simp only []
            rw [ih r m (by omega) (by omega)]
        · simp only [doPrintf, hc, if_false]
          rw [ih cs m hn1 hm1]

end OrderService
